import Mathlib

/-!
# OutBox email scheduler — verification of the scheduling + dispatch subsystem

Shallow embedding of the OutBox server's core logic:

* `checkRateLimit`, `incrementRateLimit`, `getMsUntilNextHour`
  (from `server/src/lib/rateLimiter.ts`),
* `processEmailJob` (the BullMQ worker processor, `worker/emailWorker.ts`),
* `EmailService.scheduleEmail`, `EmailService.scheduleBulkEmails`,
  `EmailService.recoverPendingJobs` (from `services/emailService.ts`),
* the queue default job options (from `lib/queue.ts`).

Timestamps are modelled as integers (milliseconds); `Date.now()` values are
naturals.  The Prisma store is a list of `EmailJob` records; `update` writes
exactly the fields named in the source's `data` clause and leaves every other
field unchanged, as Prisma does.  The worker additionally records a trace of
the externally visible actions it performs, in order, so that temporal claims
(what happens before what) can be stated.
-/

namespace OutBox

/-- Job status enum, from the Prisma schema (`SCHEDULED, PROCESSING, SENT, FAILED`). -/
inductive Status where
  | SCHEDULED
  | PROCESSING
  | SENT
  | FAILED
deriving DecidableEq, Repr

/-- An `EmailJob` row of the job store. -/
structure EmailJob where
  id : Nat
  userId : Nat
  recipient : String
  subject : String
  body : String
  status : Status
  scheduledAt : Int
  sentAt : Option Nat
  failedAt : Option Nat
deriving DecidableEq, Repr

/-- A BullMQ queue entry: its job key (BullMQ `jobId`), the payload
`{ emailJobId }`, and the delay it was enqueued with. -/
structure QueueEntry where
  jobKey : String
  emailJobId : Nat
  delayMs : Int
deriving DecidableEq, Repr

/-- `prisma.emailJob.findUnique({ where: { id } })` over a list store. -/
def findJob (store : List EmailJob) (i : Nat) : Option EmailJob :=
  store.find? (fun j => j.id == i)

/-- `prisma.emailJob.update({ where: { id }, data })`: apply `f` to every row
whose id matches (Prisma touches the unique matching row; ids are unique in
the database, the list model applies the update to each match). -/
def updateJob (store : List EmailJob) (i : Nat) (f : EmailJob → EmailJob) :
    List EmailJob :=
  store.map (fun j => if j.id = i then f j else j)

/-! ## Rate limiter (`server/src/lib/rateLimiter.ts`) -/

/-- Milliseconds from `now` to the start of the next hour window
(`nextHourMs - now`), without the buffer. -/
def msUntilNextHour (now : Nat) : Nat :=
  (now / 3600000) * 3600000 + 3600000 - now

/-- `getMsUntilNextHour()`: the source computes
`nextHourMs - now + 1000` (a 1-second buffer is folded into the return). -/
def getMsUntilNextHour (now : Nat) : Nat :=
  (now / 3600000) * 3600000 + 3600000 - now + 1000

/-- Result record of `checkRateLimit`. -/
structure RateLimitResult where
  allowed : Bool
  currentCount : Nat
  limit : Nat
  retryAfterMs : Option Nat
deriving DecidableEq, Repr

/-- `checkRateLimit(senderId)`: reads the two counters for the current hour
window and compares them against the caps; the per-sender cap is checked
first.  The Redis reads are modelled by passing the two current counter
values (`senderCount`, `globalCount`) explicitly. -/
def checkRateLimit (maxPerSender maxGlobal : Nat)
    (senderCount globalCount : Nat) (now : Nat) : RateLimitResult :=
  if senderCount ≥ maxPerSender then
    { allowed := false, currentCount := senderCount, limit := maxPerSender,
      retryAfterMs := some (getMsUntilNextHour now) }
  else if globalCount ≥ maxGlobal then
    { allowed := false, currentCount := globalCount, limit := maxGlobal,
      retryAfterMs := some (getMsUntilNextHour now) }
  else
    { allowed := true, currentCount := senderCount, limit := maxPerSender,
      retryAfterMs := none }

/-- `incrementRateLimit(senderId)`: one pipelined transaction incrementing
both counters (the 2-hour TTL refresh has no counter-value effect). -/
def incrementRateLimit (senderCount globalCount : Nat) : Nat × Nat :=
  (senderCount + 1, globalCount + 1)

/-! ## Configuration defaults (`server/src/config/index.ts` and
`lib/rateLimiter.ts` env fallbacks) -/

structure Config where
  workerConcurrency : Nat
  maxEmailsPerHourPerSender : Nat
  globalMaxEmailsPerHour : Nat
  minDelayBetweenEmails : Nat
deriving Repr

def defaultConfig : Config :=
  { workerConcurrency := 5, maxEmailsPerHourPerSender := 50,
    globalMaxEmailsPerHour := 200, minDelayBetweenEmails := 2000 }

/-! ## Worker (`worker/emailWorker.ts`, `processEmailJob`) -/

/-- Outcome of the SMTP collaborator `sendEmail` for one dispatch. -/
inductive SmtpOutcome where
  | success (messageId : String) (previewUrl : String)
  | failure (errMsg : String)
deriving DecidableEq, Repr

/-- Externally visible actions of one dispatch, in program order.
`ackCompleted` stands for the normal return of the processor (BullMQ then
marks the entry completed); `raiseToQueue` stands for the re-thrown error
(BullMQ then applies its retry policy). -/
inductive Event where
  | loadRecord (i : Nat) (found : Bool)
  | rateCheck (senderId : Nat) (allowed : Bool)
  | enqueueEntry (jobKey : String) (emailJobId : Nat) (delayMs : Int)
  | storeWrite (i : Nat) (st : Status)
  | sleepMs (ms : Nat)
  | smtpSend (toAddr subject html : String)
  | increment (senderId : Nat)
  | ackCompleted
  | raiseToQueue
deriving DecidableEq, Repr

/-- The processor's return value (`{ success, reason }`) or the re-thrown
error. -/
inductive Outcome where
  | ret (success : Bool) (reason : Option String)
  | thrown (errMsg : String)
deriving DecidableEq, Repr

/-- The per-dispatch clock reads: `tCheck` is `Date.now()` inside
`checkRateLimit`, `tRetry` the `Date.now()` used in the retry job id,
`tDone` the `new Date()` written to `sentAt` / `failedAt`. -/
structure DispatchEnv where
  smtp : SmtpOutcome
  tCheck : Nat
  tRetry : Nat
  tDone : Nat
deriving Repr

/-- Everything one dispatch changed or did: the post store, the queue entries
it added, the post counter values, the action trace, and the outcome. -/
structure DispatchResult where
  store : List EmailJob
  enqueued : List QueueEntry
  senderCount : Nat
  globalCount : Nat
  trace : List Event
  outcome : Outcome
deriving Repr

/-- `processEmailJob(job)`, the worker processor, step by step from the
source:

1. `findUnique` the record; missing → return `NOT_FOUND` (normal return, so
   the queue marks the entry completed).
2. idempotency gate: status `SENT` → return `ALREADY_SENT`; status `FAILED`
   only logs and proceeds.
3. `checkRateLimit(senderId)`; if not allowed, `emailQueue.add` a new entry
   with `delay = retryAfterMs` and `jobId = emailJobId + "-retry-" + Date.now()`,
   then return `RATE_LIMITED` (normal return).
4. update status to `PROCESSING` (only the `status` field is written).
5. sleep `minDelayBetweenEmails`, then `sendEmail`.
6. on success: update `{ status: SENT, sentAt }`, then `incrementRateLimit`,
   then return success; on error: update `{ status: FAILED, failedAt }` and
   re-throw. -/
def processEmailJob (cfg : Config) (env : DispatchEnv)
    (senderCount globalCount : Nat) (store : List EmailJob)
    (entry : QueueEntry) : DispatchResult :=
  let eid := entry.emailJobId
  match findJob store eid with
  | none =>
      { store := store, enqueued := [], senderCount := senderCount,
        globalCount := globalCount,
        trace := [.loadRecord eid false, .ackCompleted],
        outcome := .ret false (some "NOT_FOUND") }
  | some emailJob =>
      if emailJob.status = .SENT then
        { store := store, enqueued := [], senderCount := senderCount,
          globalCount := globalCount,
          trace := [.loadRecord eid true, .ackCompleted],
          outcome := .ret true (some "ALREADY_SENT") }
      else
        let senderId := emailJob.userId
        let rl := checkRateLimit cfg.maxEmailsPerHourPerSender
          cfg.globalMaxEmailsPerHour senderCount globalCount env.tCheck
        if rl.allowed = false then
          let retryKey := toString eid ++ "-retry-" ++ toString env.tRetry
          let retryMs : Int := (rl.retryAfterMs.getD 0 : Nat)
          { store := store,
            enqueued := [{ jobKey := retryKey, emailJobId := eid,
                           delayMs := retryMs }],
            senderCount := senderCount, globalCount := globalCount,
            trace := [.loadRecord eid true, .rateCheck senderId false,
                      .enqueueEntry retryKey eid retryMs, .ackCompleted],
            outcome := .ret false (some "RATE_LIMITED") }
        else
          let store1 := updateJob store eid
            (fun j => { j with status := .PROCESSING })
          match env.smtp with
          | .success _ _ =>
              let store2 := updateJob store1 eid
                (fun j => { j with status := .SENT, sentAt := some env.tDone })
              let counters := incrementRateLimit senderCount globalCount
              { store := store2, enqueued := [],
                senderCount := counters.1, globalCount := counters.2,
                trace := [.loadRecord eid true, .rateCheck senderId true,
                          .storeWrite eid .PROCESSING,
                          .sleepMs cfg.minDelayBetweenEmails,
                          .smtpSend emailJob.recipient emailJob.subject
                            emailJob.body,
                          .storeWrite eid .SENT, .increment senderId,
                          .ackCompleted],
                outcome := .ret true none }
          | .failure msg =>
              let store2 := updateJob store1 eid
                (fun j => { j with status := .FAILED, failedAt := some env.tDone })
              { store := store2, enqueued := [],
                senderCount := senderCount, globalCount := globalCount,
                trace := [.loadRecord eid true, .rateCheck senderId true,
                          .storeWrite eid .PROCESSING,
                          .sleepMs cfg.minDelayBetweenEmails,
                          .smtpSend emailJob.recipient emailJob.subject
                            emailJob.body,
                          .storeWrite eid .FAILED, .raiseToQueue],
                outcome := .thrown msg }

/-! ## Queue construction options (`server/src/lib/queue.ts`) -/

/-- The `defaultJobOptions` passed to `new Queue("email-queue", ...)`. -/
structure JobOptions where
  attempts : Nat
  backoffType : String
  backoffDelay : Nat
  removeOnComplete : Bool
  removeOnFail : Bool
deriving DecidableEq, Repr

def emailQueueDefaultJobOptions : JobOptions :=
  { attempts := 3, backoffType := "exponential", backoffDelay := 1000,
    removeOnComplete := true, removeOnFail := false }

/-- Modelled from the spec: the delay queue's transport-retry machinery is
BullMQ internals, not part of this repository; §4.B specifies exponential
backoff with base 1000 ms and factor 2 between attempts.  `attemptsMade` is
the number of attempts already made (≥ 1 when a retry is being delayed). -/
def retryBackoffMs (opts : JobOptions) (attemptsMade : Nat) : Nat :=
  opts.backoffDelay * 2 ^ (attemptsMade - 1)

/-- Modelled from the spec: the queue retries a failed entry while the number
of attempts made is below the configured attempt cap (`retryLimit`). -/
def willRetry (opts : JobOptions) (attemptsMade : Nat) : Bool :=
  attemptsMade < opts.attempts

/-- Modelled from the spec: completed entries are removed when
`removeOnComplete` is set; failed entries are retained when `removeOnFail`
is unset. -/
def removesCompletedEntries (opts : JobOptions) : Bool := opts.removeOnComplete

/-- Modelled from the spec: see `removesCompletedEntries`. -/
def retainsFailedEntries (opts : JobOptions) : Bool := !opts.removeOnFail

/-! ## Scheduler API (`services/emailService.ts`) -/

/-- The `ScheduleEmailDTO` fields the scheduling computation reads.
`scheduledAt` and `delay` are optional; a JavaScript `if (data.delay)` guard
is falsy for an absent field and for `0`. -/
structure ScheduleEmailDTO where
  recipient : String
  subject : String
  body : String
  scheduledAt : Option Int
  delay : Option Int
deriving Repr

/-- What one `scheduleEmail` call produced: the created record and the
enqueued entry. -/
structure ScheduleResult where
  job : EmailJob
  entry : QueueEntry
deriving Repr

/-- `EmailService.scheduleEmail(data)`:

```
let sendTime = new Date();
if (data.scheduledAt) sendTime = new Date(data.scheduledAt);
if (data.delay)       sendTime = new Date(Date.now() + data.delay);
```
then create the record with `status: "SCHEDULED"`, `scheduledAt: sendTime`,
and enqueue `{ delay: delayMs > 0 ? delayMs : 0, jobId: emailJob.id }` where
`delayMs = sendTime.getTime() - Date.now()`.  `now` is the wall clock,
`newId` the id Prisma assigns, `uid` the upserted user's id. -/
def scheduleEmail (now : Nat) (newId uid : Nat) (data : ScheduleEmailDTO) :
    ScheduleResult :=
  let sendTime0 : Int := (now : Int)
  let sendTime1 : Int :=
    match data.scheduledAt with
    | some t => t
    | none => sendTime0
  let sendTime : Int :=
    match data.delay with
    | some d => if d = 0 then sendTime1 else (now : Int) + d
    | none => sendTime1
  let job : EmailJob :=
    { id := newId, userId := uid, recipient := data.recipient,
      subject := data.subject, body := data.body, status := .SCHEDULED,
      scheduledAt := sendTime, sentAt := none, failedAt := none }
  let delayMs : Int := sendTime - (now : Int)
  { job := job,
    entry := { jobKey := toString newId, emailJobId := newId,
               delayMs := if delayMs > 0 then delayMs else 0 } }

/-- The `BulkScheduleDTO` fields the bulk computation reads. -/
structure BulkScheduleDTO where
  recipients : List String
  subject : String
  body : String
  startTime : Int
  delayBetweenEmails : Int
deriving Repr

/-- Return shape of `scheduleBulkEmails`. -/
structure BulkResult where
  totalScheduled : Nat
  firstSendAt : Int
  lastSendAt : Int
  jobs : List EmailJob
  entries : List QueueEntry
deriving Repr

/-- One iteration of the bulk loop: record and entry for recipient `r` at
index `i`.  `ids i` is the id Prisma assigns to the `i`-th created record;
`nowAt i` is the `Date.now()` read during the `i`-th iteration. -/
def bulkItem (uid : Nat) (ids : Nat → Nat) (nowAt : Nat → Nat)
    (data : BulkScheduleDTO) (i : Nat) (r : String) :
    EmailJob × QueueEntry :=
  let sendTime : Int := data.startTime + (i : Int) * data.delayBetweenEmails
  let job : EmailJob :=
    { id := ids i, userId := uid, recipient := r, subject := data.subject,
      body := data.body, status := .SCHEDULED, scheduledAt := sendTime,
      sentAt := none, failedAt := none }
  let delayMs : Int := sendTime - (nowAt i : Int)
  (job,
   { jobKey := toString (ids i), emailJobId := ids i,
     delayMs := if delayMs > 0 then delayMs else 0 })

/-- The `for (let i = 0; i < data.recipients.length; i++)` loop. -/
def bulkLoop (uid : Nat) (ids : Nat → Nat) (nowAt : Nat → Nat)
    (data : BulkScheduleDTO) (i : Nat) :
    List String → List (EmailJob × QueueEntry)
  | [] => []
  | r :: rest =>
      bulkItem uid ids nowAt data i r ::
        bulkLoop uid ids nowAt data (i + 1) rest

/-- `EmailService.scheduleBulkEmails(data)`: `currentTime` is
`new Date(data.startTime).getTime()` and never advances; the `i`-th
`sendTime` is `currentTime + i * delayBetweenEmails`; the return carries
`totalScheduled = jobs.length`, `firstSendAt = data.startTime`,
`lastSendAt = currentTime + (N - 1) * delayBetweenEmails`. -/
def scheduleBulkEmails (uid : Nat) (ids : Nat → Nat) (nowAt : Nat → Nat)
    (data : BulkScheduleDTO) : BulkResult :=
  let items := bulkLoop uid ids nowAt data 0 data.recipients
  { totalScheduled := items.length,
    firstSendAt := data.startTime,
    lastSendAt := data.startTime +
      ((data.recipients.length : Int) - 1) * data.delayBetweenEmails,
    jobs := items.map Prod.fst,
    entries := items.map Prod.snd }

/-! ## Recovery (`EmailService.recoverPendingJobs`) -/

/-- `emailQueue.getJob(job.id)` returns a job exactly when an entry with that
key is present. -/
def queueHasKey (queue : List QueueEntry) (k : String) : Bool :=
  queue.any (fun e => e.jobKey == k)

/-- The rewrite Recovery applies to an interrupted job: only the `status`
field is written. -/
def toScheduled (j : EmailJob) : EmailJob := { j with status := .SCHEDULED }

/-- The entry Recovery enqueues for job `j`:
`{ delay: delayMs > 0 ? delayMs : 0, jobId: job.id }` with
`delayMs = job.scheduledAt.getTime() - Date.now()`. -/
def recoveryEntry (now : Nat) (j : EmailJob) : QueueEntry :=
  let delayMs : Int := j.scheduledAt - (now : Int)
  { jobKey := toString j.id, emailJobId := j.id,
    delayMs := if delayMs > 0 then delayMs else 0 }

/-- The body of Recovery's `for (const job of pendingJobs)` loop, threading
the store and the queue. -/
def recoverStep (now : Nat) (acc : List EmailJob × List QueueEntry)
    (job : EmailJob) : List EmailJob × List QueueEntry :=
  let store' :=
    if job.status = .PROCESSING then updateJob acc.1 job.id toScheduled
    else acc.1
  if queueHasKey acc.2 (toString job.id) then (store', acc.2)
  else (store', acc.2 ++ [recoveryEntry now job])

/-- Return shape of `recoverPendingJobs` plus the resulting store and queue. -/
structure RecoveryResult where
  store : List EmailJob
  queue : List QueueEntry
  count : Nat
deriving Repr

/-- The Recovery `findMany` condition: `status ∈ { SCHEDULED, PROCESSING }`. -/
def isPending (j : EmailJob) : Bool :=
  j.status = .SCHEDULED ∨ j.status = .PROCESSING

/-- `EmailService.recoverPendingJobs()`: list jobs with
`status ∈ { SCHEDULED, PROCESSING }` (the snapshot), then for each one reset
`PROCESSING` to `SCHEDULED` and enqueue it unless an entry with its key
already exists; returns `pendingJobs.length`. -/
def recoverPendingJobs (now : Nat) (store : List EmailJob)
    (queue : List QueueEntry) : RecoveryResult :=
  let pending := store.filter isPending
  let final := pending.foldl (recoverStep now) (store, queue)
  { store := final.1, queue := final.2, count := pending.length }

/-! ## Derived notions used by the claims -/

/-- The §3 record invariant: `sentAt` is non-null iff `status = SENT`, and
`failedAt` is non-null iff `status = FAILED`. -/
def jobInvariant (j : EmailJob) : Prop :=
  (j.sentAt ≠ none ↔ j.status = .SENT) ∧
  (j.failedAt ≠ none ↔ j.status = .FAILED)

instance (j : EmailJob) : Decidable (jobInvariant j) := by
  unfold jobInvariant; infer_instance

/-- Number of store writes setting `status = SENT` in a dispatch trace. -/
def countSentWrites (tr : List Event) : Nat :=
  tr.countP (fun e =>
    match e with
    | .storeWrite _ .SENT => true
    | _ => false)

/-- Number of SMTP send invocations in a dispatch trace. -/
def countSends (tr : List Event) : Nat :=
  tr.countP (fun e =>
    match e with
    | .smtpSend _ _ _ => true
    | _ => false)

/-- Counter state after `n` sequential dispatch attempts by a single sender
in one hour window, every allowed attempt completing its send: per the
worker, an allowed attempt calls `incrementRateLimit` and a deferred attempt
leaves the counters alone. -/
def runAttempts (maxPerSender maxGlobal now : Nat) : Nat → Nat × Nat
  | 0 => (0, 0)
  | n + 1 =>
      let st := runAttempts maxPerSender maxGlobal now n
      if (checkRateLimit maxPerSender maxGlobal st.1 st.2 now).allowed then
        incrementRateLimit st.1 st.2
      else st

/-! ## Helper lemmas -/

theorem getMsUntilNextHour_eq_buffer (now : Nat) :
    getMsUntilNextHour now = msUntilNextHour now + 1000 := rfl

theorem checkRateLimit_retryAfterMs_of_not_allowed
    (maxS maxG sc gc now : Nat)
    (h : (checkRateLimit maxS maxG sc gc now).allowed = false) :
    (checkRateLimit maxS maxG sc gc now).retryAfterMs =
      some (getMsUntilNextHour now) := by
  unfold checkRateLimit at *
  split_ifs at * with h1 h2 <;> simp_all

theorem findJob_updateJob (s : List EmailJob) (i : Nat)
    (f : EmailJob → EmailJob) (hf : ∀ j, (f j).id = j.id) :
    findJob (updateJob s i f) i = (findJob s i).map f := by
  induction s with
  | nil => rfl
  | cons a t ih =>
      by_cases h : a.id = i
      · simp [findJob, updateJob, List.find?_cons, h, hf a]
      · simpa [findJob, updateJob, List.find?_cons, h] using ih

theorem updateJob_updateJob (s : List EmailJob) (i : Nat)
    (f g : EmailJob → EmailJob) (hf : ∀ j, (f j).id = j.id) :
    updateJob (updateJob s i f) i g = updateJob s i (fun j => g (f j)) := by
  unfold updateJob
  rw [List.map_map]
  apply List.map_congr_left
  intro j _
  by_cases h : j.id = i <;> simp [Function.comp, h, hf j]

theorem mem_updateJob {s : List EmailJob} {i : Nat}
    {f : EmailJob → EmailJob} {j' : EmailJob} (h : j' ∈ updateJob s i f) :
    ∃ j ∈ s, j' = if j.id = i then f j else j := by
  unfold updateJob at h
  obtain ⟨j, hj, rfl⟩ := List.mem_map.mp h
  exact ⟨j, hj, rfl⟩

/-! ## C3 — rate-limit check -/

theorem runAttempts_eq (maxS maxG now : Nat) (hSG : maxS ≤ maxG) :
    ∀ n, runAttempts maxS maxG now n = (min n maxS, min n maxS) := by
  intro n
  induction n with
  | zero => simp [runAttempts]
  | succ n ih =>
      simp only [runAttempts, ih]
      by_cases h : n < maxS
      · have h2 : n < maxG := lt_of_lt_of_le h hSG
        have hm : min n maxS = n := min_eq_left h.le
        have hc : (checkRateLimit maxS maxG (min n maxS) (min n maxS)
            now).allowed = true := by
          unfold checkRateLimit
          rw [hm, if_neg (by omega), if_neg (by omega)]
        have hm1 : min (n + 1) maxS = n + 1 := min_eq_left (by omega)
        rw [hm] at hc
        simp [hc, incrementRateLimit, hm, hm1]
      · have hm : min n maxS = maxS := min_eq_right (by omega)
        have hc : (checkRateLimit maxS maxG (min n maxS) (min n maxS)
            now).allowed = false := by
          unfold checkRateLimit
          rw [hm, if_pos (le_refl maxS)]
        have hm1 : min (n + 1) maxS = maxS := min_eq_right (by omega)
        rw [hm] at hc
        simp [hc, hm, hm1]

/-- C3: `checkRateLimit` allows exactly when both counters are strictly below
their caps; otherwise it defers with `retryAfterMs = msUntilNextHour + 1000`,
reporting the per-sender cap when both are exceeded; and in a sequence of
attempts in one window (counters incremented on each completed send), the
`cap`-th attempt is allowed while the `(cap+1)`-th is deferred. -/
theorem checkRateLimit_correct (maxS maxG sc gc now : Nat)
    (hpos : 0 < maxS) (hSG : maxS ≤ maxG) :
    ((checkRateLimit maxS maxG sc gc now).allowed = true ↔
      sc < maxS ∧ gc < maxG)
    ∧ (¬(sc < maxS ∧ gc < maxG) →
        (checkRateLimit maxS maxG sc gc now).retryAfterMs =
          some (msUntilNextHour now + 1000))
    ∧ (maxS ≤ sc → maxG ≤ gc →
        (checkRateLimit maxS maxG sc gc now).limit = maxS ∧
        (checkRateLimit maxS maxG sc gc now).currentCount = sc)
    ∧ (checkRateLimit maxS maxG
        (runAttempts maxS maxG now (maxS - 1)).1
        (runAttempts maxS maxG now (maxS - 1)).2 now).allowed = true
    ∧ (checkRateLimit maxS maxG
        (runAttempts maxS maxG now maxS).1
        (runAttempts maxS maxG now maxS).2 now).allowed = false := by
  refine ⟨?_, ?_, ?_, ?_, ?_⟩
  · unfold checkRateLimit
    split_ifs with h1 h2
    · simp only [Bool.false_eq_true, false_iff]; omega
    · simp only [Bool.false_eq_true, false_iff]; omega
    · simp only [true_iff]; omega
  · intro h
    rw [← getMsUntilNextHour_eq_buffer]
    apply checkRateLimit_retryAfterMs_of_not_allowed
    unfold checkRateLimit
    split_ifs with h1 h2
    · rfl
    · rfl
    · exact absurd ⟨by omega, by omega⟩ h
  · intro h1 h2
    unfold checkRateLimit
    rw [if_pos h1]
    exact ⟨rfl, rfl⟩
  · rw [runAttempts_eq maxS maxG now hSG]
    have hm : min (maxS - 1) maxS = maxS - 1 := min_eq_left (by omega)
    unfold checkRateLimit
    rw [hm, if_neg (by omega), if_neg (by omega)]
  · rw [runAttempts_eq maxS maxG now hSG]
    have hm : min maxS maxS = maxS := min_self maxS
    unfold checkRateLimit
    rw [hm, if_pos (le_refl maxS)]

/-- Witness for C3 at the default caps (50 per sender, 200 global). -/
theorem checkRateLimit_correct_witness :
    ((checkRateLimit 50 200 49 49 12345).allowed = true ↔
      49 < 50 ∧ 49 < 200)
    ∧ (¬(49 < 50 ∧ 49 < 200) →
        (checkRateLimit 50 200 49 49 12345).retryAfterMs =
          some (msUntilNextHour 12345 + 1000))
    ∧ (50 ≤ 49 → 200 ≤ 49 →
        (checkRateLimit 50 200 49 49 12345).limit = 50 ∧
        (checkRateLimit 50 200 49 49 12345).currentCount = 49)
    ∧ (checkRateLimit 50 200
        (runAttempts 50 200 12345 (50 - 1)).1
        (runAttempts 50 200 12345 (50 - 1)).2 12345).allowed = true
    ∧ (checkRateLimit 50 200
        (runAttempts 50 200 12345 50).1
        (runAttempts 50 200 12345 50).2 12345).allowed = false :=
  checkRateLimit_correct 50 200 49 49 12345 (by decide) (by decide)

/-! ## C6 / C10 — scheduleEmail -/

theorem clamp_eq_max (x : Int) : (if x > 0 then x else 0) = max 0 x := by
  by_cases h : 0 < x
  · rw [if_pos h, max_eq_right h.le]
  · rw [if_neg h, max_eq_left (not_lt.mp h)]

/-- C6 counterexample: with `scheduledAt = 5000` given, a provided
`delay = 0` at `now = 0` does *not* override: `sendTime` is `5000`, not
`now + delay = 0`, refuting "when a delay (ms) is also given,
`sendTime = now + delay` overrides `scheduledAt`". -/
theorem scheduleEmail_delay_zero_cex :
    (scheduleEmail 0 1 7
      { recipient := "r@x.com", subject := "s", body := "b",
        scheduledAt := some 5000, delay := some 0 }).job.scheduledAt = 5000
    ∧ ((5000 : Int) ≠ (0 : Int) + 0) := by
  exact ⟨rfl, by decide⟩

/-- C6 amended: `sendTime` equals `scheduledAt` when given (else `now`), and
a *nonzero* `delay` overrides it with `now + delay` (a `delay` of `0` is
treated as if absent, the override being truthiness-gated); the record is
created `SCHEDULED` with `scheduledAt = sendTime`, and the queue entry has
`jobKey = record.id` and `delayMs = max(0, sendTime − now)`. -/
theorem scheduleEmail_sendTime (now newId uid : Nat)
    (data : ScheduleEmailDTO) (s d : Int) :
    (data.delay = none → data.scheduledAt = some s →
      (scheduleEmail now newId uid data).job.scheduledAt = s)
    ∧ (data.delay = none → data.scheduledAt = none →
      (scheduleEmail now newId uid data).job.scheduledAt = (now : Int))
    ∧ (data.delay = some d → d ≠ 0 →
      (scheduleEmail now newId uid data).job.scheduledAt = (now : Int) + d)
    ∧ (data.delay = some 0 →
      scheduleEmail now newId uid data =
        scheduleEmail now newId uid { data with delay := none })
    ∧ (scheduleEmail now newId uid data).job.status = .SCHEDULED
    ∧ (scheduleEmail now newId uid data).job.id = newId
    ∧ (scheduleEmail now newId uid data).entry.jobKey = toString newId
    ∧ (scheduleEmail now newId uid data).entry.emailJobId = newId
    ∧ (scheduleEmail now newId uid data).entry.delayMs =
        max 0 ((scheduleEmail now newId uid data).job.scheduledAt -
          (now : Int)) := by
  refine ⟨?_, ?_, ?_, ?_, rfl, rfl, rfl, rfl, ?_⟩
  · intro hd hs; simp [scheduleEmail, hd, hs]
  · intro hd hs; simp [scheduleEmail, hd, hs]
  · intro hd hnz; simp [scheduleEmail, hd, hnz]
  · intro hd; simp [scheduleEmail, hd]
  · simp only [scheduleEmail]
    exact clamp_eq_max _

/-- Witness for C6 (amended), exercising the scheduledAt, default and
override branches at concrete inputs. -/
theorem scheduleEmail_sendTime_witness :
    ((scheduleEmail 100 1 7
      { recipient := "r", subject := "s", body := "b",
        scheduledAt := some 5000, delay := none }).job.scheduledAt = 5000)
    ∧ ((scheduleEmail 100 2 7
      { recipient := "r", subject := "s", body := "b",
        scheduledAt := some 5000, delay := some 300 }).job.scheduledAt =
        (100 : Int) + 300)
    ∧ ((scheduleEmail 100 3 7
      { recipient := "r", subject := "s", body := "b",
        scheduledAt := none, delay := none }).job.scheduledAt = (100 : Int)) :=
  ⟨(scheduleEmail_sendTime 100 1 7 _ 5000 300).1 rfl rfl,
   (scheduleEmail_sendTime 100 2 7 _ 5000 300).2.2.1 rfl (by decide),
   (scheduleEmail_sendTime 100 3 7 _ 5000 300).2.1 rfl rfl⟩

/-- C10: the `delay` override is truthiness-gated: with `scheduledAt` given
and `delay = 0`, `sendTime` equals `scheduledAt` rather than `now`, whereas
any `delay > 0` overrides `scheduledAt` with `now + delay`. -/
theorem scheduleEmail_delay_truthiness (now newId uid : Nat)
    (data : ScheduleEmailDTO) (s d : Int) (hs : data.scheduledAt = some s) :
    (data.delay = some 0 →
      (scheduleEmail now newId uid data).job.scheduledAt = s)
    ∧ (data.delay = some d → 0 < d →
      (scheduleEmail now newId uid data).job.scheduledAt = (now : Int) + d) := by
  constructor
  · intro hd; simp [scheduleEmail, hs, hd]
  · intro hd hpos
    have hnz : d ≠ 0 := by omega
    simp [scheduleEmail, hs, hd, hnz]

/-- Witness for C10 at `now = 0`, `scheduledAt = 5000`. -/
theorem scheduleEmail_delay_truthiness_witness :
    ((scheduleEmail 0 1 7
      { recipient := "r", subject := "s", body := "b",
        scheduledAt := some 5000, delay := some 0 }).job.scheduledAt = 5000)
    ∧ ((scheduleEmail 0 2 7
      { recipient := "r", subject := "s", body := "b",
        scheduledAt := some 5000, delay := some 300 }).job.scheduledAt =
        (0 : Int) + 300) :=
  ⟨(scheduleEmail_delay_truthiness 0 1 7 _ 5000 300 rfl).1 rfl,
   (scheduleEmail_delay_truthiness 0 2 7 _ 5000 300 rfl).2 rfl (by decide)⟩

/-! ## C7 — bulk scheduling -/

theorem bulkLoop_length (uid : Nat) (ids nowAt : Nat → Nat)
    (data : BulkScheduleDTO) :
    ∀ (rs : List String) (i : Nat),
      (bulkLoop uid ids nowAt data i rs).length = rs.length := by
  intro rs
  induction rs with
  | nil => intro i; rfl
  | cons r rest ih => intro i; simp [bulkLoop, ih (i + 1)]

theorem bulkLoop_getElem? (uid : Nat) (ids nowAt : Nat → Nat)
    (data : BulkScheduleDTO) :
    ∀ (rs : List String) (i k : Nat),
      (bulkLoop uid ids nowAt data i rs)[k]? =
        (rs[k]?).map (fun r => bulkItem uid ids nowAt data (i + k) r) := by
  intro rs
  induction rs with
  | nil => intro i k; simp [bulkLoop]
  | cons r rest ih =>
      intro i k
      cases k with
      | zero => simp [bulkLoop]
      | succ k =>
          have := ih (i + 1) k
          simp only [bulkLoop, List.getElem?_cons_succ, this]
          have harith : i + 1 + k = i + (k + 1) := by omega
          rw [harith]

/-- C7: a bulk call with `N` recipients creates exactly `N` records, the
`i`-th scheduled at `startTime + i × delayBetweenEmails` with a queue entry
keyed by the record id and delayed by `max(0, sendTime_i − now)`; the result
reports `totalScheduled = N`, `firstSendAt = startTime` and
`lastSendAt = startTime + (N − 1) × delayBetweenEmails`. -/
theorem scheduleBulkEmails_correct (uid : Nat) (ids nowAt : Nat → Nat)
    (data : BulkScheduleDTO) :
    ((scheduleBulkEmails uid ids nowAt data).jobs.length =
      data.recipients.length)
    ∧ ((scheduleBulkEmails uid ids nowAt data).totalScheduled =
      data.recipients.length)
    ∧ (∀ (k : Nat) (r0 : String), data.recipients[k]? = some r0 →
        ∃ j e, (scheduleBulkEmails uid ids nowAt data).jobs[k]? = some j
          ∧ (scheduleBulkEmails uid ids nowAt data).entries[k]? = some e
          ∧ j.scheduledAt = data.startTime +
              (k : Int) * data.delayBetweenEmails
          ∧ j.status = .SCHEDULED ∧ j.recipient = r0 ∧ j.id = ids k
          ∧ e.jobKey = toString j.id ∧ e.emailJobId = j.id
          ∧ e.delayMs = max 0 (j.scheduledAt - (nowAt k : Int)))
    ∧ ((scheduleBulkEmails uid ids nowAt data).firstSendAt = data.startTime)
    ∧ ((scheduleBulkEmails uid ids nowAt data).lastSendAt =
        data.startTime +
          ((data.recipients.length : Int) - 1) * data.delayBetweenEmails) := by
  refine ⟨?_, ?_, ?_, rfl, rfl⟩
  · simp [scheduleBulkEmails, bulkLoop_length]
  · simp [scheduleBulkEmails, bulkLoop_length]
  · intro k r0 hk
    refine ⟨(bulkItem uid ids nowAt data k r0).1,
            (bulkItem uid ids nowAt data k r0).2, ?_, ?_, ?_, ?_, ?_, ?_,
            ?_, ?_, ?_⟩
    · simp [scheduleBulkEmails, List.getElem?_map,
        bulkLoop_getElem? uid ids nowAt data data.recipients 0 k, hk]
    · simp [scheduleBulkEmails, List.getElem?_map,
        bulkLoop_getElem? uid ids nowAt data data.recipients 0 k, hk]
    · rfl
    · rfl
    · rfl
    · rfl
    · rfl
    · rfl
    · simp only [bulkItem]
      exact clamp_eq_max _

/-- Witness for C7 on a three-recipient batch. -/
theorem scheduleBulkEmails_correct_witness :
    ((scheduleBulkEmails 7 (fun i => i + 10) (fun _ => 1200)
      { recipients := ["a", "b", "c"], subject := "s", body := "b",
        startTime := 1000, delayBetweenEmails := 500 }).jobs.length = 3)
    ∧ (∃ j e,
        (scheduleBulkEmails 7 (fun i => i + 10) (fun _ => 1200)
          { recipients := ["a", "b", "c"], subject := "s", body := "b",
            startTime := 1000, delayBetweenEmails := 500 }).jobs[2]? = some j
        ∧ (scheduleBulkEmails 7 (fun i => i + 10) (fun _ => 1200)
          { recipients := ["a", "b", "c"], subject := "s", body := "b",
            startTime := 1000, delayBetweenEmails := 500 }).entries[2]? =
            some e
        ∧ j.scheduledAt = 1000 + (2 : Int) * 500
        ∧ j.status = .SCHEDULED ∧ j.recipient = "c" ∧ j.id = 12
        ∧ e.jobKey = toString j.id ∧ e.emailJobId = j.id
        ∧ e.delayMs = max 0 (j.scheduledAt - (1200 : Int))) := by
  have h := scheduleBulkEmails_correct 7 (fun i => i + 10) (fun _ => 1200)
    { recipients := ["a", "b", "c"], subject := "s", body := "b",
      startTime := 1000, delayBetweenEmails := 500 }
  exact ⟨h.1, h.2.2.1 2 "c" rfl⟩

/-! ## Worker branch equations -/

theorem process_notFound (cfg : Config) (env : DispatchEnv) (sc gc : Nat)
    (store : List EmailJob) (entry : QueueEntry)
    (h : findJob store entry.emailJobId = none) :
    processEmailJob cfg env sc gc store entry =
      { store := store, enqueued := [], senderCount := sc, globalCount := gc,
        trace := [.loadRecord entry.emailJobId false, .ackCompleted],
        outcome := .ret false (some "NOT_FOUND") } := by
  simp [processEmailJob, h]

theorem process_alreadySent (cfg : Config) (env : DispatchEnv) (sc gc : Nat)
    (store : List EmailJob) (entry : QueueEntry) (j : EmailJob)
    (hj : findJob store entry.emailJobId = some j) (hs : j.status = .SENT) :
    processEmailJob cfg env sc gc store entry =
      { store := store, enqueued := [], senderCount := sc, globalCount := gc,
        trace := [.loadRecord entry.emailJobId true, .ackCompleted],
        outcome := .ret true (some "ALREADY_SENT") } := by
  simp [processEmailJob, hj, hs]

theorem process_rateLimited (cfg : Config) (env : DispatchEnv) (sc gc : Nat)
    (store : List EmailJob) (entry : QueueEntry) (j : EmailJob)
    (hj : findJob store entry.emailJobId = some j) (hs : j.status ≠ .SENT)
    (hrl : (checkRateLimit cfg.maxEmailsPerHourPerSender
      cfg.globalMaxEmailsPerHour sc gc env.tCheck).allowed = false) :
    processEmailJob cfg env sc gc store entry =
      { store := store,
        enqueued := [⟨toString entry.emailJobId ++ "-retry-" ++ toString env.tRetry, entry.emailJobId, (getMsUntilNextHour env.tCheck : Int)⟩],
        senderCount := sc, globalCount := gc,
        trace := [.loadRecord entry.emailJobId true,
          .rateCheck j.userId false,
          .enqueueEntry (toString entry.emailJobId ++ "-retry-" ++
            toString env.tRetry) entry.emailJobId
            (getMsUntilNextHour env.tCheck : Int),
          .ackCompleted],
        outcome := .ret false (some "RATE_LIMITED") } := by
  have hretry := checkRateLimit_retryAfterMs_of_not_allowed
    cfg.maxEmailsPerHourPerSender cfg.globalMaxEmailsPerHour sc gc
    env.tCheck hrl
  simp [processEmailJob, hj, hs, hrl, hretry]

theorem process_success (cfg : Config) (env : DispatchEnv) (sc gc : Nat)
    (store : List EmailJob) (entry : QueueEntry) (j : EmailJob)
    (m p : String)
    (hj : findJob store entry.emailJobId = some j) (hs : j.status ≠ .SENT)
    (hrl : (checkRateLimit cfg.maxEmailsPerHourPerSender
      cfg.globalMaxEmailsPerHour sc gc env.tCheck).allowed = true)
    (hsm : env.smtp = .success m p) :
    processEmailJob cfg env sc gc store entry =
      { store := updateJob store entry.emailJobId
          (fun x => { x with status := .SENT, sentAt := some env.tDone }),
        enqueued := [], senderCount := sc + 1, globalCount := gc + 1,
        trace := [.loadRecord entry.emailJobId true, .rateCheck j.userId true,
          .storeWrite entry.emailJobId .PROCESSING,
          .sleepMs cfg.minDelayBetweenEmails,
          .smtpSend j.recipient j.subject j.body,
          .storeWrite entry.emailJobId .SENT, .increment j.userId,
          .ackCompleted],
        outcome := .ret true none } := by
  have hcomp : updateJob
      (updateJob store entry.emailJobId
        (fun x => { x with status := Status.PROCESSING }))
      entry.emailJobId
      (fun x => { x with status := Status.SENT, sentAt := some env.tDone }) =
      updateJob store entry.emailJobId
        (fun x => { x with status := Status.SENT,
                           sentAt := some env.tDone }) := by
    rw [updateJob_updateJob store entry.emailJobId
      (fun x => { x with status := Status.PROCESSING })
      (fun x => { x with status := Status.SENT, sentAt := some env.tDone })
      (fun x => rfl)]
  simp [processEmailJob, hj, hs, hrl, hsm, incrementRateLimit, hcomp]

theorem process_failure (cfg : Config) (env : DispatchEnv) (sc gc : Nat)
    (store : List EmailJob) (entry : QueueEntry) (j : EmailJob)
    (msg : String)
    (hj : findJob store entry.emailJobId = some j) (hs : j.status ≠ .SENT)
    (hrl : (checkRateLimit cfg.maxEmailsPerHourPerSender
      cfg.globalMaxEmailsPerHour sc gc env.tCheck).allowed = true)
    (hsm : env.smtp = .failure msg) :
    processEmailJob cfg env sc gc store entry =
      { store := updateJob store entry.emailJobId
          (fun x => { x with status := .FAILED, failedAt := some env.tDone }),
        enqueued := [], senderCount := sc, globalCount := gc,
        trace := [.loadRecord entry.emailJobId true, .rateCheck j.userId true,
          .storeWrite entry.emailJobId .PROCESSING,
          .sleepMs cfg.minDelayBetweenEmails,
          .smtpSend j.recipient j.subject j.body,
          .storeWrite entry.emailJobId .FAILED, .raiseToQueue],
        outcome := .thrown msg } := by
  have hcomp : updateJob
      (updateJob store entry.emailJobId
        (fun x => { x with status := Status.PROCESSING }))
      entry.emailJobId
      (fun x => { x with status := Status.FAILED,
                         failedAt := some env.tDone }) =
      updateJob store entry.emailJobId
        (fun x => { x with status := Status.FAILED,
                           failedAt := some env.tDone }) := by
    rw [updateJob_updateJob store entry.emailJobId
      (fun x => { x with status := Status.PROCESSING })
      (fun x => { x with status := Status.FAILED, failedAt := some env.tDone })
      (fun x => rfl)]
  simp [processEmailJob, hj, hs, hrl, hsm, hcomp]

/-! ## C1 — sentAt/failedAt invariant -/

theorem findJob_mem {store : List EmailJob} {i : Nat} {j : EmailJob}
    (h : findJob store i = some j) : j ∈ store :=
  List.mem_of_find?_eq_some h

theorem findJob_id {store : List EmailJob} {i : Nat} {j : EmailJob}
    (h : findJob store i = some j) : j.id = i := by
  have := List.find?_some h
  simpa using this

/-- C1 counterexample: dispatching a `FAILED` job (with `failedAt = 5`)
through a successful send leaves the record `SENT` with `failedAt` still
non-null, so the claimed invariant does not hold in the resulting state. -/
theorem jobInvariant_cex :
    findJob (processEmailJob defaultConfig
      { smtp := .success "mid" "purl", tCheck := 0, tRetry := 0, tDone := 50 }
      0 0
      [{ id := 1, userId := 7, recipient := "r@x.com", subject := "s",
         body := "b", status := .FAILED, scheduledAt := 0, sentAt := none,
         failedAt := some 5 }]
      { jobKey := "1", emailJobId := 1, delayMs := 0 }).store 1 =
      some { id := 1, userId := 7, recipient := "r@x.com", subject := "s",
             body := "b", status := .SENT, scheduledAt := 0,
             sentAt := some 50, failedAt := some 5 }
    ∧ ¬ jobInvariant
      { id := 1, userId := 7, recipient := "r@x.com", subject := "s",
        body := "b", status := .SENT, scheduledAt := 0,
        sentAt := some 50, failedAt := some 5 } :=
  ⟨rfl, by decide⟩

/-- Invariant preservation for one worker dispatch, provided the record the
entry targets is not a `FAILED` one (re-attempting a `FAILED` record is
exactly the case the counterexample exhibits). -/
theorem storeInv_processEmailJob (cfg : Config) (env : DispatchEnv)
    (sc gc : Nat) (store : List EmailJob) (entry : QueueEntry)
    (hinv : ∀ j ∈ store, jobInvariant j)
    (hnodup : (store.map EmailJob.id).Nodup)
    (hnf : ∀ j ∈ store, j.id = entry.emailJobId → j.status ≠ .FAILED) :
    ∀ j ∈ (processEmailJob cfg env sc gc store entry).store,
      jobInvariant j := by
  cases hfind : findJob store entry.emailJobId with
  | none =>
      rw [process_notFound cfg env sc gc store entry hfind]
      exact hinv
  | some j =>
      by_cases hsent : j.status = .SENT
      · rw [process_alreadySent cfg env sc gc store entry j hfind hsent]
        exact hinv
      · cases hrl : (checkRateLimit cfg.maxEmailsPerHourPerSender
          cfg.globalMaxEmailsPerHour sc gc env.tCheck).allowed with
        | false =>
            rw [process_rateLimited cfg env sc gc store entry j hfind hsent
              hrl]
            exact hinv
        | true =>
            cases hsm : env.smtp with
            | success m p =>
                rw [process_success cfg env sc gc store entry j m p hfind
                  hsent hrl hsm]
                intro x hx
                obtain ⟨j0, hj0, hx'⟩ := mem_updateJob hx
                by_cases hid : j0.id = entry.emailJobId
                · rw [if_pos hid] at hx'
                  have hfa : j0.failedAt = none := by
                    by_contra hne
                    exact hnf j0 hj0 hid ((hinv j0 hj0).2.mp hne)
                  subst hx'
                  constructor <;> simp [hfa]
                · rw [if_neg hid] at hx'
                  exact hx' ▸ hinv j0 hj0
            | failure msg =>
                rw [process_failure cfg env sc gc store entry j msg hfind
                  hsent hrl hsm]
                intro x hx
                obtain ⟨j0, hj0, hx'⟩ := mem_updateJob hx
                by_cases hid : j0.id = entry.emailJobId
                · rw [if_pos hid] at hx'
                  have hj0j : j0 = j := by
                    apply List.inj_on_of_nodup_map hnodup hj0
                      (findJob_mem hfind)
                    rw [hid, findJob_id hfind]
                  have hsa : j0.sentAt = none := by
                    by_contra hne
                    exact hsent (hj0j ▸ (hinv j0 hj0).1.mp hne)
                  subst hx'
                  constructor <;> simp [hsa]
                · rw [if_neg hid] at hx'
                  exact hx' ▸ hinv j0 hj0

/-! ## Recovery fold lemmas -/

theorem recoverStep_fst (now : Nat) (acc : List EmailJob × List QueueEntry)
    (job : EmailJob) :
    (recoverStep now acc job).1 =
      if job.status = .PROCESSING then updateJob acc.1 job.id toScheduled
      else acc.1 := by
  unfold recoverStep
  split_ifs <;> rfl

theorem recoverStep_snd (now : Nat) (acc : List EmailJob × List QueueEntry)
    (job : EmailJob) :
    (recoverStep now acc job).2 =
      if queueHasKey acc.2 (toString job.id) then acc.2
      else acc.2 ++ [recoveryEntry now job] := by
  unfold recoverStep
  split_ifs <;> rfl

theorem queueHasKey_recoverStep (now : Nat)
    (acc : List EmailJob × List QueueEntry) (job : EmailJob) (k : String)
    (h : queueHasKey acc.2 k = true) :
    queueHasKey (recoverStep now acc job).2 k = true := by
  rw [recoverStep_snd]
  split_ifs
  · exact h
  · unfold queueHasKey at *
    rw [List.any_append]
    simp [h]

theorem queueHasKey_recoverFold (now : Nat) :
    ∀ (l : List EmailJob) (acc : List EmailJob × List QueueEntry)
      (k : String), queueHasKey acc.2 k = true →
      queueHasKey (l.foldl (recoverStep now) acc).2 k = true := by
  intro l
  induction l with
  | nil => intro acc k h; simpa using h
  | cons a t ih =>
      intro acc k h
      rw [List.foldl_cons]
      exact ih _ k (queueHasKey_recoverStep now acc a k h)

theorem recoverFold_hasKey (now : Nat) :
    ∀ (l : List EmailJob) (acc : List EmailJob × List QueueEntry),
      ∀ p ∈ l,
        queueHasKey (l.foldl (recoverStep now) acc).2 (toString p.id) =
          true := by
  intro l
  induction l with
  | nil => intro acc p hp; exact absurd hp (List.not_mem_nil p)
  | cons a t ih =>
      intro acc p hp
      rw [List.foldl_cons]
      rcases List.mem_cons.mp hp with rfl | hpt
      · apply queueHasKey_recoverFold
        rw [recoverStep_snd]
        split_ifs with h
        · exact h
        · unfold queueHasKey
          rw [List.any_append]
          simp [recoveryEntry]
      · exact ih _ p hpt

theorem toScheduled_toScheduled (j : EmailJob) :
    toScheduled (toScheduled j) = toScheduled j := rfl

theorem toScheduled_id (j : EmailJob) : (toScheduled j).id = j.id := rfl

theorem recoverFold_store_preimage (now : Nat) :
    ∀ (l : List EmailJob) (acc : List EmailJob × List QueueEntry)
      (j' : EmailJob), j' ∈ (l.foldl (recoverStep now) acc).1 →
      ∃ j0 ∈ acc.1, j' = j0 ∨ (j' = toScheduled j0 ∧
        ∃ p ∈ l, p.id = j0.id ∧ p.status = .PROCESSING) := by
  intro l
  induction l with
  | nil => intro acc j' h; exact ⟨j', h, Or.inl rfl⟩
  | cons a t ih =>
      intro acc j' hj'
      rw [List.foldl_cons] at hj'
      obtain ⟨j1, hj1, hcase⟩ := ih (recoverStep now acc a) j' hj'
      rw [recoverStep_fst] at hj1
      by_cases ha : a.status = .PROCESSING
      · rw [if_pos ha] at hj1
        obtain ⟨j0, hj0, hj1'⟩ := mem_updateJob hj1
        refine ⟨j0, hj0, ?_⟩
        by_cases hid : j0.id = a.id
        · rw [if_pos hid] at hj1'
          rcases hcase with hje | ⟨hje, p, hp, hpid, hpst⟩
          · exact Or.inr ⟨hje.trans hj1', a, List.mem_cons_self a t,
              hid.symm, ha⟩
          · refine Or.inr ⟨?_, p, List.mem_cons_of_mem a hp, ?_, hpst⟩
            · rw [hje, hj1', toScheduled_toScheduled]
            · rw [hj1'] at hpid
              rw [toScheduled_id] at hpid
              exact hpid
        · rw [if_neg hid] at hj1'
          rcases hcase with hje | ⟨hje, p, hp, hpid, hpst⟩
          · exact Or.inl (hje.trans hj1')
          · refine Or.inr ⟨?_, p, List.mem_cons_of_mem a hp, ?_, hpst⟩
            · rw [hje, hj1']
            · rw [hj1'] at hpid
              exact hpid
      · rw [if_neg ha] at hj1
        refine ⟨j1, hj1, ?_⟩
        rcases hcase with hje | ⟨hje, p, hp, hpid, hpst⟩
        · exact Or.inl hje
        · exact Or.inr ⟨hje, p, List.mem_cons_of_mem a hp, hpid, hpst⟩

theorem recoverFold_store_image (now : Nat) :
    ∀ (l : List EmailJob) (acc : List EmailJob × List QueueEntry)
      (j0 : EmailJob), j0 ∈ acc.1 →
      ∃ j' ∈ (l.foldl (recoverStep now) acc).1,
        j' = j0 ∨ j' = toScheduled j0 := by
  intro l
  induction l with
  | nil => intro acc j0 h; exact ⟨j0, h, Or.inl rfl⟩
  | cons a t ih =>
      intro acc j0 h
      rw [List.foldl_cons]
      by_cases ha : a.status = .PROCESSING
      · have hmem : (if j0.id = a.id then toScheduled j0 else j0) ∈
            (recoverStep now acc a).1 := by
          rw [recoverStep_fst, if_pos ha]
          unfold updateJob
          exact List.mem_map_of_mem _ h
        obtain ⟨j', hj', hcase⟩ := ih (recoverStep now acc a) _ hmem
        by_cases hid : j0.id = a.id
        · rw [if_pos hid] at hcase
          rcases hcase with rfl | h2
          · exact ⟨toScheduled j0, hj', Or.inr rfl⟩
          · exact ⟨j', hj', Or.inr h2⟩
        · rw [if_neg hid] at hcase
          exact ⟨j', hj', hcase⟩
      · have hmem : j0 ∈ (recoverStep now acc a).1 := by
          rw [recoverStep_fst, if_neg ha]
          exact h
        exact ih (recoverStep now acc a) j0 hmem

theorem recoverFold_no_processing (now : Nat) :
    ∀ (l : List EmailJob) (acc : List EmailJob × List QueueEntry),
      (∀ j ∈ acc.1, j.status = .PROCESSING →
        ∃ p ∈ l, p.id = j.id ∧ p.status = .PROCESSING) →
      ∀ j' ∈ (l.foldl (recoverStep now) acc).1,
        j'.status ≠ .PROCESSING := by
  intro l
  induction l with
  | nil =>
      intro acc h j' hj' hP
      obtain ⟨p, hp, _⟩ := h j' hj' hP
      exact absurd hp (List.not_mem_nil p)
  | cons a t ih =>
      intro acc h
      rw [List.foldl_cons]
      apply ih
      intro j hj hP
      rw [recoverStep_fst] at hj
      by_cases ha : a.status = .PROCESSING
      · rw [if_pos ha] at hj
        obtain ⟨j0, hj0, hj'⟩ := mem_updateJob hj
        by_cases hid : j0.id = a.id
        · rw [if_pos hid] at hj'
          rw [hj'] at hP
          exact absurd hP (by simp [toScheduled])
        · rw [if_neg hid] at hj'
          have hP0 : j0.status = .PROCESSING := by rw [← hj']; exact hP
          obtain ⟨p, hp, hpid, hpst⟩ := h j0 hj0 hP0
          rcases List.mem_cons.mp hp with hpa | hpt
          · exfalso
            rw [hpa] at hpid
            exact hid hpid.symm
          · refine ⟨p, hpt, ?_, hpst⟩
            rw [hj']
            exact hpid
      · rw [if_neg ha] at hj
        obtain ⟨p, hp, hpid, hpst⟩ := h j hj hP
        rcases List.mem_cons.mp hp with hpa | hpt
        · exfalso
          rw [hpa] at hpst
          exact ha hpst
        · exact ⟨p, hpt, hpid, hpst⟩

theorem recoverFold_queue_preimage (now : Nat) :
    ∀ (l : List EmailJob) (acc : List EmailJob × List QueueEntry)
      (e : QueueEntry), e ∈ (l.foldl (recoverStep now) acc).2 →
      e ∈ acc.2 ∨ ∃ p ∈ l, e = recoveryEntry now p ∧
        queueHasKey acc.2 (toString p.id) = false := by
  intro l
  induction l with
  | nil => intro acc e h; exact Or.inl h
  | cons a t ih =>
      intro acc e he
      rw [List.foldl_cons] at he
      rcases ih (recoverStep now acc a) e he with h1 | ⟨p, hp, rfl, hkey⟩
      · rw [recoverStep_snd] at h1
        split_ifs at h1 with hk
        · exact Or.inl h1
        · rcases List.mem_append.mp h1 with h2 | h2
          · exact Or.inl h2
          · have he2 : e = recoveryEntry now a := by simpa using h2
            exact Or.inr ⟨a, List.mem_cons_self a t, he2, by
              simpa using hk⟩
      · have hkey0 : queueHasKey acc.2 (toString p.id) = false := by
          by_contra hc
          have : queueHasKey acc.2 (toString p.id) = true := by
            cases hq : queueHasKey acc.2 (toString p.id)
            · exact absurd hq hc
            · rfl
          rw [queueHasKey_recoverStep now acc a _ this] at hkey
          exact Bool.true_eq_false.mp hkey
        exact Or.inr ⟨p, List.mem_cons_of_mem a hp, rfl, hkey0⟩

theorem recoverFold_identity (now : Nat) :
    ∀ (l : List EmailJob) (acc : List EmailJob × List QueueEntry),
      (∀ p ∈ l, p.status ≠ .PROCESSING ∧
        queueHasKey acc.2 (toString p.id) = true) →
      l.foldl (recoverStep now) acc = acc := by
  intro l
  induction l with
  | nil => intro acc _; rfl
  | cons a t ih =>
      intro acc h
      have ha := h a (List.mem_cons_self a t)
      have hstep : recoverStep now acc a = acc := by
        unfold recoverStep
        rw [if_neg ha.1, if_pos ha.2]
      rw [List.foldl_cons, hstep]
      exact ih acc (fun p hp => h p (List.mem_cons_of_mem a hp))

theorem storeInv_recoverPendingJobs (now : Nat) (store : List EmailJob)
    (queue : List QueueEntry)
    (hinv : ∀ j ∈ store, jobInvariant j)
    (hnodup : (store.map EmailJob.id).Nodup) :
    ∀ j ∈ (recoverPendingJobs now store queue).store, jobInvariant j := by
  intro j hj
  simp only [recoverPendingJobs] at hj
  obtain ⟨j0, hj0, hcase⟩ := recoverFold_store_preimage now _ (store, queue)
    j hj
  rcases hcase with hje | ⟨hje, p, hp, hpid, hpst⟩
  · rw [hje]; exact hinv j0 hj0
  · have hpstore : p ∈ store := List.mem_of_mem_filter hp
    have hpj0 : p = j0 := List.inj_on_of_nodup_map hnodup hpstore hj0 hpid
    have hj0P : j0.status = .PROCESSING := by rw [← hpj0]; exact hpst
    have hinv0 := hinv j0 hj0
    have hsa : j0.sentAt = none := by
      by_contra hne
      have hst := hinv0.1.mp hne
      rw [hj0P] at hst
      exact Status.noConfusion hst
    have hfa : j0.failedAt = none := by
      by_contra hne
      have hst := hinv0.2.mp hne
      rw [hj0P] at hst
      exact Status.noConfusion hst
    rw [hje]
    constructor <;> simp [toScheduled, hsa, hfa]

theorem bulkLoop_mem (uid : Nat) (ids nowAt : Nat → Nat)
    (data : BulkScheduleDTO) :
    ∀ (rs : List String) (i : Nat) (x : EmailJob × QueueEntry),
      x ∈ bulkLoop uid ids nowAt data i rs →
      ∃ k r, x = bulkItem uid ids nowAt data k r := by
  intro rs
  induction rs with
  | nil => intro i x hx; exact absurd hx (List.not_mem_nil x)
  | cons r rest ih =>
      intro i x hx
      rcases List.mem_cons.mp hx with hxa | hxt
      · exact ⟨i, r, hxa⟩
      · exact ih (i + 1) x hxt

/-- C1 amended: every write keeps `sentAt` non-null iff `SENT` and
`failedAt` non-null iff `FAILED` — for the worker provided the dispatched
record is not a re-attempted `FAILED` one (the updates never clear
`failedAt`, so a `FAILED` record re-attempted to `PROCESSING` and `SENT`
keeps its old non-null `failedAt`, as the counterexample shows); scheduling
(single and bulk) creates records satisfying the invariant, and Recovery
preserves it. -/
theorem jobInvariant_preserved (cfg : Config) (env : DispatchEnv)
    (sc gc : Nat) (store : List EmailJob) (entry : QueueEntry)
    (now nid uid : Nat) (dto : ScheduleEmailDTO)
    (buid : Nat) (ids nowAt : Nat → Nat) (bdto : BulkScheduleDTO)
    (rnow : Nat) (store2 : List EmailJob) (queue2 : List QueueEntry) :
    ((∀ j ∈ store, jobInvariant j) → (store.map EmailJob.id).Nodup →
      (∀ j ∈ store, j.id = entry.emailJobId → j.status ≠ .FAILED) →
      ∀ j ∈ (processEmailJob cfg env sc gc store entry).store,
        jobInvariant j)
    ∧ jobInvariant (scheduleEmail now nid uid dto).job
    ∧ (∀ j ∈ (scheduleBulkEmails buid ids nowAt bdto).jobs, jobInvariant j)
    ∧ ((∀ j ∈ store2, jobInvariant j) → (store2.map EmailJob.id).Nodup →
      ∀ j ∈ (recoverPendingJobs rnow store2 queue2).store,
        jobInvariant j) := by
  refine ⟨?_, ?_, ?_, ?_⟩
  · intro hinv hnodup hnf
    exact storeInv_processEmailJob cfg env sc gc store entry hinv hnodup hnf
  · constructor <;> simp [scheduleEmail]
  · intro j hj
    simp only [scheduleBulkEmails] at hj
    obtain ⟨x, hx, hxj⟩ := List.mem_map.mp hj
    obtain ⟨k, r, hxkr⟩ := bulkLoop_mem buid ids nowAt bdto bdto.recipients
      0 x hx
    rw [← hxj, hxkr]
    constructor <;> simp [bulkItem]
  · intro hinv hnodup
    exact storeInv_recoverPendingJobs rnow store2 queue2 hinv hnodup

/-- Witness for C1 (amended) on a one-job store holding a `SCHEDULED`
record. -/
theorem jobInvariant_preserved_witness :
    (∀ j ∈ (processEmailJob defaultConfig
        { smtp := .success "m" "p", tCheck := 0, tRetry := 0, tDone := 9 }
        0 0
        [{ id := 1, userId := 7, recipient := "r@x.com", subject := "s",
           body := "b", status := .SCHEDULED, scheduledAt := 0,
           sentAt := none, failedAt := none }]
        { jobKey := "1", emailJobId := 1, delayMs := 0 }).store,
      jobInvariant j)
    ∧ jobInvariant (scheduleEmail 0 1 7
        { recipient := "r", subject := "s", body := "b",
          scheduledAt := none, delay := none }).job
    ∧ (∀ j ∈ (scheduleBulkEmails 7 (fun i => i) (fun _ => 0)
        { recipients := ["a"], subject := "s", body := "b",
          startTime := 0, delayBetweenEmails := 10 }).jobs, jobInvariant j)
    ∧ (∀ j ∈ (recoverPendingJobs 0
        [{ id := 1, userId := 7, recipient := "r@x.com", subject := "s",
           body := "b", status := .SCHEDULED, scheduledAt := 0,
           sentAt := none, failedAt := none }] []).store,
      jobInvariant j) := by
  have h := jobInvariant_preserved defaultConfig
    { smtp := .success "m" "p", tCheck := 0, tRetry := 0, tDone := 9 }
    0 0
    [{ id := 1, userId := 7, recipient := "r@x.com", subject := "s",
       body := "b", status := .SCHEDULED, scheduledAt := 0,
       sentAt := none, failedAt := none }]
    { jobKey := "1", emailJobId := 1, delayMs := 0 }
    0 1 7
    { recipient := "r", subject := "s", body := "b", scheduledAt := none,
      delay := none }
    7 (fun i => i) (fun _ => 0)
    { recipients := ["a"], subject := "s", body := "b", startTime := 0,
      delayBetweenEmails := 10 }
    0
    [{ id := 1, userId := 7, recipient := "r@x.com", subject := "s",
       body := "b", status := .SCHEDULED, scheduledAt := 0,
       sentAt := none, failedAt := none }] []
  exact ⟨h.1 (by decide) (by decide) (by decide), h.2.1, h.2.2.1,
    h.2.2.2 (by decide) (by decide)⟩

/-! ## C8 — recovery -/

theorem isPending_iff (j : EmailJob) :
    isPending j = true ↔ (j.status = .SCHEDULED ∨ j.status = .PROCESSING) := by
  simp [isPending]

theorem mem_pending_of_processing {store : List EmailJob} {j : EmailJob}
    (hj : j ∈ store) (hP : j.status = .PROCESSING) :
    j ∈ store.filter isPending :=
  List.mem_filter.mpr ⟨hj, (isPending_iff j).mpr (Or.inr hP)⟩

theorem recoverPendingJobs_no_processing (now : Nat) (store : List EmailJob)
    (queue : List QueueEntry) :
    ∀ j ∈ (recoverPendingJobs now store queue).store,
      j.status ≠ .PROCESSING := by
  intro j hj
  simp only [recoverPendingJobs] at hj
  refine recoverFold_no_processing now (store.filter isPending)
    (store, queue) ?_ j hj
  intro x hx hxP
  exact ⟨x, mem_pending_of_processing hx hxP, rfl, hxP⟩

theorem recoverPendingJobs_hasKey_of_pending (now : Nat)
    (store : List EmailJob) (queue : List QueueEntry) :
    ∀ j ∈ (recoverPendingJobs now store queue).store,
      (j.status = .SCHEDULED ∨ j.status = .PROCESSING) →
      queueHasKey (recoverPendingJobs now store queue).queue
        (toString j.id) = true := by
  intro j hj hpend
  simp only [recoverPendingJobs] at hj ⊢
  obtain ⟨j0, hj0, hcase⟩ := recoverFold_store_preimage now
    (store.filter isPending) (store, queue) j hj
  rcases hcase with hje | ⟨hje, p, hp, hpid, hpst⟩
  · have hj0pend : j0 ∈ store.filter isPending := by
      refine List.mem_filter.mpr ⟨hj0, (isPending_iff j0).mpr ?_⟩
      rw [← hje]
      exact hpend
    have := recoverFold_hasKey now (store.filter isPending) (store, queue)
      j0 hj0pend
    rw [hje]
    exact this
  · have := recoverFold_hasKey now (store.filter isPending) (store, queue)
      p hp
    have hid : j.id = p.id := by
      rw [hje, toScheduled_id, ← hpid]
    rw [hid]
    exact this

theorem recoverPendingJobs_eq_of_fold_identity (n : Nat)
    (s : List EmailJob) (q : List QueueEntry)
    (h : (s.filter isPending).foldl (recoverStep n) (s, q) = (s, q)) :
    (recoverPendingJobs n s q).store = s ∧
    (recoverPendingJobs n s q).queue = q := by
  constructor <;> simp only [recoverPendingJobs] <;> rw [h]

/-- C8: Recovery rewrites every `PROCESSING` job to `SCHEDULED`, enqueues
`jobKey = job.id` with `delayMs = max(0, scheduledAt − now)` only for
pending jobs whose key is not already queued, and a second Recovery run
right after the first leaves the store and the queue unchanged. -/
theorem recoverPendingJobs_correct (now now2 : Nat) (store : List EmailJob)
    (queue : List QueueEntry) :
    (∀ j ∈ (recoverPendingJobs now store queue).store,
      j.status ≠ .PROCESSING)
    ∧ (∀ j ∈ store, j.status = .PROCESSING →
        toScheduled j ∈ (recoverPendingJobs now store queue).store)
    ∧ (∀ e ∈ (recoverPendingJobs now store queue).queue,
        e ∈ queue ∨ ∃ p, (p ∈ store ∧
          (p.status = .SCHEDULED ∨ p.status = .PROCESSING)) ∧
          e = recoveryEntry now p ∧
          queueHasKey queue (toString p.id) = false)
    ∧ (∀ p : EmailJob, recoveryEntry now p =
        { jobKey := toString p.id, emailJobId := p.id,
          delayMs := max 0 (p.scheduledAt - (now : Int)) })
    ∧ (recoverPendingJobs now2 (recoverPendingJobs now store queue).store
        (recoverPendingJobs now store queue).queue).store =
        (recoverPendingJobs now store queue).store
    ∧ (recoverPendingJobs now2 (recoverPendingJobs now store queue).store
        (recoverPendingJobs now store queue).queue).queue =
        (recoverPendingJobs now store queue).queue := by
  have hident : (((recoverPendingJobs now store queue).store.filter
      isPending).foldl (recoverStep now2)
      ((recoverPendingJobs now store queue).store,
       (recoverPendingJobs now store queue).queue)) =
      ((recoverPendingJobs now store queue).store,
       (recoverPendingJobs now store queue).queue) := by
    apply recoverFold_identity
    intro p hp
    have hmem := List.mem_of_mem_filter hp
    have hpend : p.status = .SCHEDULED ∨ p.status = .PROCESSING :=
      (isPending_iff p).mp (List.of_mem_filter hp)
    exact ⟨recoverPendingJobs_no_processing now store queue p hmem,
      recoverPendingJobs_hasKey_of_pending now store queue p hmem hpend⟩
  refine ⟨recoverPendingJobs_no_processing now store queue, ?_, ?_, ?_,
    ?_, ?_⟩
  · intro j hj hP
    obtain ⟨j', hj', hcase⟩ := recoverFold_store_image now
      (store.filter isPending) (store, queue) j hj
    have hj'mem : j' ∈ (recoverPendingJobs now store queue).store := by
      simp only [recoverPendingJobs]
      exact hj'
    rcases hcase with hje | hje
    · exfalso
      apply recoverPendingJobs_no_processing now store queue j' hj'mem
      rw [hje]
      exact hP
    · rw [← hje]
      exact hj'mem
  · intro e he
    simp only [recoverPendingJobs] at he
    rcases recoverFold_queue_preimage now (store.filter isPending)
      (store, queue) e he with h1 | ⟨p, hp, he2, hkey⟩
    · exact Or.inl h1
    · exact Or.inr ⟨p, ⟨List.mem_of_mem_filter hp,
        (isPending_iff p).mp (List.of_mem_filter hp)⟩, he2, hkey⟩
  · intro p
    simp only [recoveryEntry]
    rw [clamp_eq_max]
  · exact (recoverPendingJobs_eq_of_fold_identity now2 _ _ hident).1
  · exact (recoverPendingJobs_eq_of_fold_identity now2 _ _ hident).2

/-- Witness for C8 on a store holding one interrupted (`PROCESSING`) job and
one `SENT` job, with an empty queue. -/
theorem recoverPendingJobs_correct_witness :
    (toScheduled
      { id := 1, userId := 7, recipient := "a@x.com", subject := "s",
        body := "b", status := .PROCESSING, scheduledAt := 10,
        sentAt := none, failedAt := none } ∈
      (recoverPendingJobs 4
        [{ id := 1, userId := 7, recipient := "a@x.com", subject := "s",
           body := "b", status := .PROCESSING, scheduledAt := 10,
           sentAt := none, failedAt := none },
         { id := 2, userId := 7, recipient := "c@x.com", subject := "s",
           body := "b", status := .SENT, scheduledAt := 0,
           sentAt := some 3, failedAt := none }] []).store)
    ∧ (recoverPendingJobs 9
        (recoverPendingJobs 4
          [{ id := 1, userId := 7, recipient := "a@x.com", subject := "s",
             body := "b", status := .PROCESSING, scheduledAt := 10,
             sentAt := none, failedAt := none },
           { id := 2, userId := 7, recipient := "c@x.com", subject := "s",
             body := "b", status := .SENT, scheduledAt := 0,
             sentAt := some 3, failedAt := none }] []).store
        (recoverPendingJobs 4
          [{ id := 1, userId := 7, recipient := "a@x.com", subject := "s",
             body := "b", status := .PROCESSING, scheduledAt := 10,
             sentAt := none, failedAt := none },
           { id := 2, userId := 7, recipient := "c@x.com", subject := "s",
             body := "b", status := .SENT, scheduledAt := 0,
             sentAt := some 3, failedAt := none }] []).queue).store =
      (recoverPendingJobs 4
        [{ id := 1, userId := 7, recipient := "a@x.com", subject := "s",
           body := "b", status := .PROCESSING, scheduledAt := 10,
           sentAt := none, failedAt := none },
         { id := 2, userId := 7, recipient := "c@x.com", subject := "s",
           body := "b", status := .SENT, scheduledAt := 0,
           sentAt := some 3, failedAt := none }] []).store := by
  have h := recoverPendingJobs_correct 4 9
    [{ id := 1, userId := 7, recipient := "a@x.com", subject := "s",
       body := "b", status := .PROCESSING, scheduledAt := 10,
       sentAt := none, failedAt := none },
     { id := 2, userId := 7, recipient := "c@x.com", subject := "s",
       body := "b", status := .SENT, scheduledAt := 0,
       sentAt := some 3, failedAt := none }] []
  exact ⟨h.2.1 _ (List.mem_cons_self _ _) rfl, h.2.2.2.2.1⟩

/-! ## C2 / C4 / C5 / C9 — worker dispatch claims -/

theorem countSentWrites_le_one (cfg : Config) (env : DispatchEnv)
    (sc gc : Nat) (store : List EmailJob) (entry : QueueEntry) :
    countSentWrites (processEmailJob cfg env sc gc store entry).trace ≤ 1 := by
  cases hfind : findJob store entry.emailJobId with
  | none =>
      rw [process_notFound cfg env sc gc store entry hfind]
      simp [countSentWrites]
  | some j =>
      by_cases hsent : j.status = .SENT
      · rw [process_alreadySent cfg env sc gc store entry j hfind hsent]
        simp [countSentWrites]
      · cases hrl : (checkRateLimit cfg.maxEmailsPerHourPerSender
          cfg.globalMaxEmailsPerHour sc gc env.tCheck).allowed with
        | false =>
            rw [process_rateLimited cfg env sc gc store entry j hfind hsent
              hrl]
            simp [countSentWrites]
        | true =>
            cases hsm : env.smtp with
            | success m p =>
                rw [process_success cfg env sc gc store entry j m p hfind
                  hsent hrl hsm]
                simp [countSentWrites]
            | failure msg =>
                rw [process_failure cfg env sc gc store entry j msg hfind
                  hsent hrl hsm]
                simp [countSentWrites]

/-- C2: a queue entry whose record is already `SENT` is acknowledged with
`ALREADY_SENT`, with no send, no enqueue and no store write; and across two
dispatches of entries for the same `emailJobId`, at most one `SENT` store
write happens. -/
theorem worker_idempotent_sent (cfg : Config) (env1 env2 : DispatchEnv)
    (sc1 gc1 sc2 gc2 : Nat) (store : List EmailJob)
    (entry entry2 : QueueEntry)
    (hsame : entry2.emailJobId = entry.emailJobId) :
    (∀ j, findJob store entry.emailJobId = some j → j.status = .SENT →
      processEmailJob cfg env1 sc1 gc1 store entry =
        { store := store, enqueued := [], senderCount := sc1,
          globalCount := gc1,
          trace := [.loadRecord entry.emailJobId true, .ackCompleted],
          outcome := .ret true (some "ALREADY_SENT") })
    ∧ countSentWrites (processEmailJob cfg env1 sc1 gc1 store entry).trace +
        countSentWrites (processEmailJob cfg env2 sc2 gc2
          (processEmailJob cfg env1 sc1 gc1 store entry).store
          entry2).trace ≤ 1 := by
  constructor
  · intro j hj hs
    exact process_alreadySent cfg env1 sc1 gc1 store entry j hj hs
  · cases hfind : findJob store entry.emailJobId with
    | none =>
        rw [process_notFound cfg env1 sc1 gc1 store entry hfind]
        simpa [countSentWrites] using
          countSentWrites_le_one cfg env2 sc2 gc2 store entry2
    | some j =>
        by_cases hsent : j.status = .SENT
        · rw [process_alreadySent cfg env1 sc1 gc1 store entry j hfind hsent]
          simpa [countSentWrites] using
            countSentWrites_le_one cfg env2 sc2 gc2 store entry2
        · cases hrl : (checkRateLimit cfg.maxEmailsPerHourPerSender
            cfg.globalMaxEmailsPerHour sc1 gc1 env1.tCheck).allowed with
          | false =>
              rw [process_rateLimited cfg env1 sc1 gc1 store entry j hfind
                hsent hrl]
              simpa [countSentWrites] using
                countSentWrites_le_one cfg env2 sc2 gc2 store entry2
          | true =>
              cases hsm : env1.smtp with
              | success m p =>
                  rw [process_success cfg env1 sc1 gc1 store entry j m p
                    hfind hsent hrl hsm]
                  have hfind2 : findJob
                      (updateJob store entry.emailJobId
                        (fun x => { x with status := Status.SENT, sentAt := some env1.tDone }))
                      entry2.emailJobId =
                      some { j with status := Status.SENT, sentAt := some env1.tDone } := by
                    rw [hsame, findJob_updateJob store entry.emailJobId
                      (fun x => { x with status := Status.SENT, sentAt := some env1.tDone })
                      (fun x => rfl), hfind]
                    rfl
                  rw [process_alreadySent cfg env2 sc2 gc2 _ entry2 _ hfind2
                    rfl]
                  simp [countSentWrites]
              | failure msg =>
                  rw [process_failure cfg env1 sc1 gc1 store entry j msg
                    hfind hsent hrl hsm]
                  simpa [countSentWrites] using
                    countSentWrites_le_one cfg env2 sc2 gc2 _ entry2

/-- C4: when the rate-limit check denies, the worker enqueues one new entry
for the same `emailJobId` with `delay = retryAfterMs` and a fresh
`id-retry-<timestamp>` key, acknowledges the current entry returning
`RATE_LIMITED`, and writes nothing to the store — the record stays as it
was. -/
theorem worker_rateLimit_deferral (cfg : Config) (env : DispatchEnv)
    (sc gc : Nat) (store : List EmailJob) (entry : QueueEntry)
    (j : EmailJob)
    (hj : findJob store entry.emailJobId = some j) (hs : j.status ≠ .SENT)
    (hrl : (checkRateLimit cfg.maxEmailsPerHourPerSender
      cfg.globalMaxEmailsPerHour sc gc env.tCheck).allowed = false) :
    (processEmailJob cfg env sc gc store entry).store = store
    ∧ (processEmailJob cfg env sc gc store entry).enqueued =
        [⟨toString entry.emailJobId ++ "-retry-" ++ toString env.tRetry,
          entry.emailJobId, (getMsUntilNextHour env.tCheck : Int)⟩]
    ∧ (checkRateLimit cfg.maxEmailsPerHourPerSender
        cfg.globalMaxEmailsPerHour sc gc env.tCheck).retryAfterMs =
        some (getMsUntilNextHour env.tCheck)
    ∧ (processEmailJob cfg env sc gc store entry).outcome =
        .ret false (some "RATE_LIMITED")
    ∧ (processEmailJob cfg env sc gc store entry).trace =
        [.loadRecord entry.emailJobId true, .rateCheck j.userId false,
          .enqueueEntry (toString entry.emailJobId ++ "-retry-" ++
            toString env.tRetry) entry.emailJobId
            (getMsUntilNextHour env.tCheck : Int), .ackCompleted]
    ∧ findJob (processEmailJob cfg env sc gc store entry).store
        entry.emailJobId = some j := by
  have heq := process_rateLimited cfg env sc gc store entry j hj hs hrl
  refine ⟨by rw [heq], by rw [heq], ?_, by rw [heq], by rw [heq],
    by rw [heq]; exact hj⟩
  exact checkRateLimit_retryAfterMs_of_not_allowed _ _ _ _ _ hrl

/-- Witness for C4: a `SCHEDULED` record dispatched with the per-sender
counter at its cap. -/
theorem worker_rateLimit_deferral_witness :
    (processEmailJob defaultConfig
      { smtp := .success "m" "p", tCheck := 0, tRetry := 77, tDone := 9 }
      50 0
      [{ id := 1, userId := 7, recipient := "r@x.com", subject := "s",
         body := "b", status := .SCHEDULED, scheduledAt := 0,
         sentAt := none, failedAt := none }]
      { jobKey := "1", emailJobId := 1, delayMs := 0 }).store =
      [{ id := 1, userId := 7, recipient := "r@x.com", subject := "s",
         body := "b", status := .SCHEDULED, scheduledAt := 0,
         sentAt := none, failedAt := none }]
    ∧ (processEmailJob defaultConfig
      { smtp := .success "m" "p", tCheck := 0, tRetry := 77, tDone := 9 }
      50 0
      [{ id := 1, userId := 7, recipient := "r@x.com", subject := "s",
         body := "b", status := .SCHEDULED, scheduledAt := 0,
         sentAt := none, failedAt := none }]
      { jobKey := "1", emailJobId := 1, delayMs := 0 }).enqueued =
      [⟨"1-retry-77", 1, (getMsUntilNextHour 0 : Int)⟩]
    ∧ (processEmailJob defaultConfig
      { smtp := .success "m" "p", tCheck := 0, tRetry := 77, tDone := 9 }
      50 0
      [{ id := 1, userId := 7, recipient := "r@x.com", subject := "s",
         body := "b", status := .SCHEDULED, scheduledAt := 0,
         sentAt := none, failedAt := none }]
      { jobKey := "1", emailJobId := 1, delayMs := 0 }).outcome =
      .ret false (some "RATE_LIMITED") := by
  have h := worker_rateLimit_deferral defaultConfig
    { smtp := .success "m" "p", tCheck := 0, tRetry := 77, tDone := 9 }
    50 0
    [{ id := 1, userId := 7, recipient := "r@x.com", subject := "s",
       body := "b", status := .SCHEDULED, scheduledAt := 0,
       sentAt := none, failedAt := none }]
    { jobKey := "1", emailJobId := 1, delayMs := 0 }
    { id := 1, userId := 7, recipient := "r@x.com", subject := "s",
      body := "b", status := .SCHEDULED, scheduledAt := 0,
      sentAt := none, failedAt := none }
    rfl (by decide) rfl
  exact ⟨h.1, h.2.1, h.2.2.2.1⟩

/-- Witness for C2: a record already `SENT` dispatched twice. -/
theorem worker_idempotent_sent_witness :
    (processEmailJob defaultConfig
      { smtp := .success "m" "p", tCheck := 0, tRetry := 0, tDone := 9 }
      0 0
      [{ id := 1, userId := 7, recipient := "r@x.com", subject := "s",
         body := "b", status := .SENT, scheduledAt := 0,
         sentAt := some 3, failedAt := none }]
      { jobKey := "1", emailJobId := 1, delayMs := 0 } =
      { store :=
          [{ id := 1, userId := 7, recipient := "r@x.com", subject := "s",
             body := "b", status := .SENT, scheduledAt := 0,
             sentAt := some 3, failedAt := none }],
        enqueued := [], senderCount := 0, globalCount := 0,
        trace := [.loadRecord 1 true, .ackCompleted],
        outcome := .ret true (some "ALREADY_SENT") })
    ∧ countSentWrites (processEmailJob defaultConfig
        { smtp := .success "m" "p", tCheck := 0, tRetry := 0, tDone := 9 }
        0 0
        [{ id := 1, userId := 7, recipient := "r@x.com", subject := "s",
           body := "b", status := .SENT, scheduledAt := 0,
           sentAt := some 3, failedAt := none }]
        { jobKey := "1", emailJobId := 1, delayMs := 0 }).trace +
      countSentWrites (processEmailJob defaultConfig
        { smtp := .success "m2" "p2", tCheck := 1, tRetry := 1, tDone := 19 }
        0 0
        (processEmailJob defaultConfig
          { smtp := .success "m" "p", tCheck := 0, tRetry := 0, tDone := 9 }
          0 0
          [{ id := 1, userId := 7, recipient := "r@x.com", subject := "s",
             body := "b", status := .SENT, scheduledAt := 0,
             sentAt := some 3, failedAt := none }]
          { jobKey := "1", emailJobId := 1, delayMs := 0 }).store
        { jobKey := "1b", emailJobId := 1, delayMs := 0 }).trace ≤ 1 := by
  have h := worker_idempotent_sent defaultConfig
    { smtp := .success "m" "p", tCheck := 0, tRetry := 0, tDone := 9 }
    { smtp := .success "m2" "p2", tCheck := 1, tRetry := 1, tDone := 19 }
    0 0 0 0
    [{ id := 1, userId := 7, recipient := "r@x.com", subject := "s",
       body := "b", status := .SENT, scheduledAt := 0,
       sentAt := some 3, failedAt := none }]
    { jobKey := "1", emailJobId := 1, delayMs := 0 }
    { jobKey := "1b", emailJobId := 1, delayMs := 0 } rfl
  exact ⟨h.1 _ rfl rfl, h.2⟩

/-- C5: the rate counters are incremented only on the success path, after
the send and the `SENT` store write and before the acknowledgement (the
success trace is exactly load, rate-check, `PROCESSING` write, sleep, send,
`SENT` write, increment, ack); a rate-limit deferral or a transport failure
leaves the counters untouched and performs no increment. -/
theorem worker_increment_after_send (cfg : Config) (env : DispatchEnv)
    (sc gc : Nat) (store : List EmailJob) (entry : QueueEntry)
    (j : EmailJob)
    (hj : findJob store entry.emailJobId = some j)
    (hs : j.status ≠ .SENT) :
    ((checkRateLimit cfg.maxEmailsPerHourPerSender
        cfg.globalMaxEmailsPerHour sc gc env.tCheck).allowed = false →
      (∀ u, Event.increment u ∉
        (processEmailJob cfg env sc gc store entry).trace)
      ∧ (processEmailJob cfg env sc gc store entry).senderCount = sc
      ∧ (processEmailJob cfg env sc gc store entry).globalCount = gc)
    ∧ (∀ m p, (checkRateLimit cfg.maxEmailsPerHourPerSender
        cfg.globalMaxEmailsPerHour sc gc env.tCheck).allowed = true →
      env.smtp = .success m p →
      (processEmailJob cfg env sc gc store entry).trace =
        [.loadRecord entry.emailJobId true, .rateCheck j.userId true,
          .storeWrite entry.emailJobId .PROCESSING,
          .sleepMs cfg.minDelayBetweenEmails,
          .smtpSend j.recipient j.subject j.body,
          .storeWrite entry.emailJobId .SENT, .increment j.userId,
          .ackCompleted]
      ∧ (processEmailJob cfg env sc gc store entry).senderCount = sc + 1
      ∧ (processEmailJob cfg env sc gc store entry).globalCount = gc + 1)
    ∧ (∀ msg, (checkRateLimit cfg.maxEmailsPerHourPerSender
        cfg.globalMaxEmailsPerHour sc gc env.tCheck).allowed = true →
      env.smtp = .failure msg →
      (∀ u, Event.increment u ∉
        (processEmailJob cfg env sc gc store entry).trace)
      ∧ (processEmailJob cfg env sc gc store entry).senderCount = sc
      ∧ (processEmailJob cfg env sc gc store entry).globalCount = gc) := by
  refine ⟨?_, ?_, ?_⟩
  · intro hrl
    rw [process_rateLimited cfg env sc gc store entry j hj hs hrl]
    refine ⟨?_, rfl, rfl⟩
    intro u
    simp
  · intro m p hrl hsm
    rw [process_success cfg env sc gc store entry j m p hj hs hrl hsm]
    exact ⟨rfl, rfl, rfl⟩
  · intro msg hrl hsm
    rw [process_failure cfg env sc gc store entry j msg hj hs hrl hsm]
    refine ⟨?_, rfl, rfl⟩
    intro u
    simp

/-- Witness for C5: success path and failure path at concrete inputs. -/
theorem worker_increment_after_send_witness :
    ((processEmailJob defaultConfig
      { smtp := .success "m" "p", tCheck := 0, tRetry := 0, tDone := 9 }
      0 0
      [{ id := 1, userId := 7, recipient := "r@x.com", subject := "s",
         body := "b", status := .SCHEDULED, scheduledAt := 0,
         sentAt := none, failedAt := none }]
      { jobKey := "1", emailJobId := 1, delayMs := 0 }).trace =
      [.loadRecord 1 true, .rateCheck 7 true, .storeWrite 1 .PROCESSING,
        .sleepMs 2000, .smtpSend "r@x.com" "s" "b", .storeWrite 1 .SENT,
        .increment 7, .ackCompleted])
    ∧ ((processEmailJob defaultConfig
      { smtp := .success "m" "p", tCheck := 0, tRetry := 0, tDone := 9 }
      0 0
      [{ id := 1, userId := 7, recipient := "r@x.com", subject := "s",
         body := "b", status := .SCHEDULED, scheduledAt := 0,
         sentAt := none, failedAt := none }]
      { jobKey := "1", emailJobId := 1, delayMs := 0 }).senderCount = 1)
    ∧ (∀ u, Event.increment u ∉
      (processEmailJob defaultConfig
        { smtp := .failure "boom", tCheck := 0, tRetry := 0, tDone := 9 }
        0 0
        [{ id := 1, userId := 7, recipient := "r@x.com", subject := "s",
           body := "b", status := .SCHEDULED, scheduledAt := 0,
           sentAt := none, failedAt := none }]
        { jobKey := "1", emailJobId := 1, delayMs := 0 }).trace) := by
  have h1 := worker_increment_after_send defaultConfig
    { smtp := .success "m" "p", tCheck := 0, tRetry := 0, tDone := 9 }
    0 0
    [{ id := 1, userId := 7, recipient := "r@x.com", subject := "s",
       body := "b", status := .SCHEDULED, scheduledAt := 0,
       sentAt := none, failedAt := none }]
    { jobKey := "1", emailJobId := 1, delayMs := 0 }
    { id := 1, userId := 7, recipient := "r@x.com", subject := "s",
      body := "b", status := .SCHEDULED, scheduledAt := 0,
      sentAt := none, failedAt := none }
    rfl (by decide)
  have h2 := worker_increment_after_send defaultConfig
    { smtp := .failure "boom", tCheck := 0, tRetry := 0, tDone := 9 }
    0 0
    [{ id := 1, userId := 7, recipient := "r@x.com", subject := "s",
       body := "b", status := .SCHEDULED, scheduledAt := 0,
       sentAt := none, failedAt := none }]
    { jobKey := "1", emailJobId := 1, delayMs := 0 }
    { id := 1, userId := 7, recipient := "r@x.com", subject := "s",
      body := "b", status := .SCHEDULED, scheduledAt := 0,
      sentAt := none, failedAt := none }
    rfl (by decide)
  exact ⟨(h1.2.1 "m" "p" rfl rfl).1, (h1.2.1 "m" "p" rfl rfl).2.1,
    (h2.2.2 "boom" rfl rfl).1⟩

/-- C9: a transport failure sets the record to `FAILED` with
`failedAt = now` and re-raises the error to the queue; the queue is
configured to retry up to 3 attempts with exponential backoff of base
1000 ms, to remove completed entries and to retain failed ones. -/
theorem worker_transport_failure (cfg : Config) (env : DispatchEnv)
    (sc gc : Nat) (store : List EmailJob) (entry : QueueEntry)
    (j : EmailJob) (msg : String)
    (hj : findJob store entry.emailJobId = some j)
    (hs : j.status ≠ .SENT)
    (hrl : (checkRateLimit cfg.maxEmailsPerHourPerSender
      cfg.globalMaxEmailsPerHour sc gc env.tCheck).allowed = true)
    (hsm : env.smtp = .failure msg) :
    findJob (processEmailJob cfg env sc gc store entry).store
      entry.emailJobId =
      some { j with status := .FAILED, failedAt := some env.tDone }
    ∧ (processEmailJob cfg env sc gc store entry).outcome = .thrown msg
    ∧ (processEmailJob cfg env sc gc store entry).trace =
        [.loadRecord entry.emailJobId true, .rateCheck j.userId true,
          .storeWrite entry.emailJobId .PROCESSING,
          .sleepMs cfg.minDelayBetweenEmails,
          .smtpSend j.recipient j.subject j.body,
          .storeWrite entry.emailJobId .FAILED, .raiseToQueue]
    ∧ emailQueueDefaultJobOptions.attempts = 3
    ∧ emailQueueDefaultJobOptions.backoffType = "exponential"
    ∧ retryBackoffMs emailQueueDefaultJobOptions 1 = 1000
    ∧ retryBackoffMs emailQueueDefaultJobOptions 2 = 2000
    ∧ retryBackoffMs emailQueueDefaultJobOptions 3 = 4000
    ∧ (∀ k : Nat, willRetry emailQueueDefaultJobOptions k = true ↔ k < 3)
    ∧ removesCompletedEntries emailQueueDefaultJobOptions = true
    ∧ retainsFailedEntries emailQueueDefaultJobOptions = true := by
  have heq := process_failure cfg env sc gc store entry j msg hj hs hrl hsm
  refine ⟨?_, by rw [heq], by rw [heq], rfl, rfl, by decide, by decide,
    by decide, ?_, rfl, rfl⟩
  · rw [heq]
    show findJob (updateJob store entry.emailJobId
      (fun x => { x with status := Status.FAILED, failedAt := some env.tDone }))
      entry.emailJobId = _
    rw [findJob_updateJob store entry.emailJobId
      (fun x => { x with status := Status.FAILED, failedAt := some env.tDone })
      (fun x => rfl), hj]
    rfl
  · intro k
    simp [willRetry, emailQueueDefaultJobOptions]

/-- Witness for C9 at a concrete failing dispatch. -/
theorem worker_transport_failure_witness :
    findJob (processEmailJob defaultConfig
      { smtp := .failure "boom", tCheck := 0, tRetry := 0, tDone := 42 }
      0 0
      [{ id := 1, userId := 7, recipient := "r@x.com", subject := "s",
         body := "b", status := .SCHEDULED, scheduledAt := 0,
         sentAt := none, failedAt := none }]
      { jobKey := "1", emailJobId := 1, delayMs := 0 }).store 1 =
      some { id := 1, userId := 7, recipient := "r@x.com", subject := "s",
             body := "b", status := .FAILED, scheduledAt := 0,
             sentAt := none, failedAt := some 42 }
    ∧ (processEmailJob defaultConfig
      { smtp := .failure "boom", tCheck := 0, tRetry := 0, tDone := 42 }
      0 0
      [{ id := 1, userId := 7, recipient := "r@x.com", subject := "s",
         body := "b", status := .SCHEDULED, scheduledAt := 0,
         sentAt := none, failedAt := none }]
      { jobKey := "1", emailJobId := 1, delayMs := 0 }).outcome =
      .thrown "boom"
    ∧ retryBackoffMs emailQueueDefaultJobOptions 2 = 2000 := by
  have h := worker_transport_failure defaultConfig
    { smtp := .failure "boom", tCheck := 0, tRetry := 0, tDone := 42 }
    0 0
    [{ id := 1, userId := 7, recipient := "r@x.com", subject := "s",
       body := "b", status := .SCHEDULED, scheduledAt := 0,
       sentAt := none, failedAt := none }]
    { jobKey := "1", emailJobId := 1, delayMs := 0 }
    { id := 1, userId := 7, recipient := "r@x.com", subject := "s",
      body := "b", status := .SCHEDULED, scheduledAt := 0,
      sentAt := none, failedAt := none }
    "boom" rfl (by decide) rfl rfl
  exact ⟨h.1, h.2.1, h.2.2.2.2.2.2.1⟩

end OutBox
